import Mathlib

/-!
Shallow embedding of the `ps2hdd` crate (a Rust wrapper around `libps2hdd`,
the library form of pfsshell) and proofs about its session, partition,
mount and directory-operation layer.

The low-level driver (`ps2hdd_sys` / iomanX) is out of scope of the crate
design: its primitive results are supplied by explicit environment records,
and the model records which primitives were invoked as an explicit call log.
Machine integers (`c_int`, `u64`, `u32`) are modelled as `Int` / `Nat`;
Rust `Result<_, String>` is `Except String _`; functions that can also
panic (via `expect` / `assert!`) return an `Outcome`.
-/

namespace Ps2Hdd

/-- Result of a Rust call that can return `Ok`, return `Err`, or panic
(`expect` / `assert!` / `unimplemented!`). -/
inductive Outcome (α : Type) where
  | ok (a : α)
  | err (msg : String)
  | panicked
deriving DecidableEq, Repr

/-- Returns `true` exactly on the `ok` constructor. -/
def Outcome.isOk {α : Type} : Outcome α → Bool
  | .ok _ => true
  | _ => false

deriving instance DecidableEq for Except

/-- UTF-8 bytes of a Rust `&str` (what `CString::new` and `as_bytes` see);
the same encoding as `String.toUTF8`, written over `List` so it computes in
the kernel. -/
def strBytes (s : String) : List Nat :=
  (s.data.flatMap String.utf8EncodeChar).map (fun b => b.toNat)

/-- Byte position of the first interior nul, as `NulError` reports it. -/
def firstNulIdx : List Nat → Option Nat
  | [] => none
  | b :: rest => if b = 0 then some 0 else (firstNulIdx rest).map (· + 1)

/-- Models `std::ffi::CString::new` on a Rust string: succeeds with the UTF-8 bytes
unless they contain an interior nul byte, in which case it fails with the
`NulError` display text. -/
def cstringNew (s : String) : Except String (List Nat) :=
  match firstNulIdx (strBytes s) with
  | some i => .error ("nul byte found in provided data at position: " ++ toString i)
  | none => .ok (strBytes s)

/-! ## ffi_utils.rs

`strerror` is the platform error-string table (`libc::strerror`), an
external total function supplied by the environment. -/

/-- Models `str::to_lowercase` on the ASCII partition-kind tags: character-wise
lowercasing, written over the character list so it computes in the
kernel. -/
def strToLower (s : String) : String := ⟨s.data.map Char.toLower⟩

/-- Models `ffi_utils::ok_on_pred_or_strerror`: turns a C result code into a
`Result`, failing (with the message, the code and the `strerror` text for
its negation) exactly when the predicate holds. -/
def ok_on_pred_or_strerror (strerror : Int → String) (result : Int)
    (errMessage : String) (f : Int → Bool) : Except String Int :=
  if f result then
    .error (errMessage ++ (": " ++ (toString result ++ (", " ++ strerror (-result)))))
  else
    .ok result

/-- Models `ffi_utils::ok_on_zero_or_strerror`: zero means success. -/
def ok_on_zero_or_strerror (strerror : Int → String) (result : Int)
    (errMessage : String) : Except String Int :=
  ok_on_pred_or_strerror strerror result errMessage (fun ret => ret != 0)

/-- Models `ffi_utils::ok_on_nonnegative_or_strerror`: any nonnegative result means
success (the value is typically a handle). -/
def ok_on_nonnegative_or_strerror (strerror : Int → String) (result : Int)
    (errMessage : String) : Except String Int :=
  ok_on_pred_or_strerror strerror result errMessage (fun ret => decide (ret < 0))

/-! ## partition_kind.rs -/

/-- Models `partition_kind::PartitionKind`: the closed set of APA partition type
codes. -/
inductive PartitionKind where
  | MBR
  | EXT2Swap
  | EXT2
  | PFS
  | CFS
  | HDL
deriving DecidableEq, Repr

/-- The numeric discriminant of each `PartitionKind` variant. -/
def PartitionKind.code : PartitionKind → Nat
  | .MBR => 0x0001
  | .EXT2Swap => 0x0082
  | .EXT2 => 0x0083
  | .PFS => 0x0100
  | .CFS => 0x0101
  | .HDL => 0x1337

/-- Models `PartitionKind::as_apa_fs_type`. -/
def PartitionKind.asApaFsType : PartitionKind → String
  | .MBR => "MBR"
  | .EXT2Swap => "EXT2SWAP"
  | .EXT2 => "EXT2"
  | .PFS => "PFS"
  | .CFS => "CFS"
  | .HDL => "HDL"

/-- Models `TryFrom<u32> for PartitionKind`: the guard cascade of the source,
comparing the number with each variant code in declaration order. -/
def PartitionKind.tryFromNat (n : Nat) : Except String PartitionKind :=
  if n = PartitionKind.MBR.code then .ok .MBR
  else if n = PartitionKind.EXT2Swap.code then .ok .EXT2Swap
  else if n = PartitionKind.EXT2.code then .ok .EXT2
  else if n = PartitionKind.PFS.code then .ok .PFS
  else if n = PartitionKind.CFS.code then .ok .CFS
  else if n = PartitionKind.HDL.code then .ok .HDL
  else .error "Not a valid partition kind value"

/-- Models `partition_kind::FormattablePartitionKind`: the subset of kinds for
which a driver exists. -/
inductive FormattablePartitionKind where
  | MBR
  | PFS
  | HDL
deriving DecidableEq, Repr

/-- Models `TryFrom<PartitionKind> for FormattablePartitionKind`. -/
def FormattablePartitionKind.tryFromPartitionKind :
    PartitionKind → Except String FormattablePartitionKind
  | .MBR => .ok .MBR
  | .PFS => .ok .PFS
  | .HDL => .ok .HDL
  | _ => .error "Not a formattable partition kind"

/-- Models `From<FormattablePartitionKind> for PartitionKind`. -/
def FormattablePartitionKind.toPartitionKind : FormattablePartitionKind → PartitionKind
  | .MBR => .MBR
  | .PFS => .PFS
  | .HDL => .HDL

/-! ## fs.rs: raw dirents and their projections -/

/-- The `name` buffer of a raw `iox_dirent_t` as seen through
`CStr::from_ptr(..).to_str()`: either it decodes to a Rust string, or
decoding fails with a `Utf8Error` whose display text we carry. -/
inductive RawName where
  | valid (s : String)
  | invalid (errText : String)
deriving DecidableEq, Repr

/-- A raw `iox_dirent_t` record as filled in by the driver: name buffer,
`stat.mode` and `stat.size` (the only fields this layer reads). -/
structure RawDirent where
  name : RawName
  mode : Nat
  size : Nat
deriving DecidableEq, Repr

/-- One `iomanx_dread` interaction: the signed result code and the dirent
contents the driver left in the output buffer. -/
structure RawStep where
  result : Int
  dirent : RawDirent
deriving DecidableEq, Repr

/-- Models `fs::PartEntry`: a projected partition-table entry. -/
structure PartEntry where
  name : String
  kind : Option PartitionKind
  size : Nat
deriving DecidableEq, Repr

/-- Models `TryFrom<iox_dirent_t> for PartEntry`: decode the name, translate a
zero mode to no kind and any other mode through `PartitionKind::try_from`,
and normalise the sector count to bytes by multiplying by 512. -/
def partEntryTryFrom (d : RawDirent) : Except String PartEntry :=
  match d.name with
  | .invalid e => .error e
  | .valid n =>
    if d.mode = 0 then .ok { name := n, kind := none, size := d.size * 512 }
    else
      match PartitionKind.tryFromNat d.mode with
      | .error e => .error e
      | .ok k => .ok { name := n, kind := some k, size := d.size * 512 }

/-- Models `fs::DirEntry`: a filesystem directory entry as pushed by
`Driver::list_dir` — the (decoded) name and stat fields of the cloned
dirent, plus the relative path the listing was rooted at. -/
structure DirEntry where
  entryName : String
  mode : Nat
  size : Nat
  root : String
deriving DecidableEq, Repr

/-! ## Driver primitives and their call log -/

/-- A primitive driver call, as recorded in the call log of an operation. -/
inductive Call where
  | iomanxDopen (path : String)
  | iomanxDread (fd : Int)
  | iomanxClose (fd : Int)
  | iomanxOpen (path : String)
  | iomanxMkdir (path : String) (mode : Nat)
  | iomanxFormat (device : String) (partition : Option String)
  | iomanxMount (mountPoint : String) (partition : String)
deriving DecidableEq, Repr

/-- Driver responses for one directory-listing operation: the `dopen`
result, the successive `dread` results (an exhausted list is read as the
driver reporting end of iteration, result 0), and the `close` result. -/
structure DirIterEnv where
  dopenRes : Int
  steps : List RawStep
  closeRes : Int
  strerror : Int → String

/-- The close-and-return tail of `Driver::list_dir`: close the directory
handle (checked with the zero-means-success convention) and return the
accumulated entries. -/
def listDirClose (env : DirIterEnv) (fd : Int) (acc : List DirEntry)
    (log : List Call) : Outcome (List DirEntry) × List Call :=
  let log := log ++ [Call.iomanxClose fd]
  match ok_on_zero_or_strerror env.strerror env.closeRes
      "Failed to close directory handle" with
  | .error e => (.err e, log)
  | .ok _ => (.ok acc, log)

/-- The drain loop of `Driver::list_dir`: read one entry per `dread`; a
negative result returns the error built from the code and the name buffer
(without closing the handle, as in the source); a zero result ends the
loop; a positive result pushes the entry unless its name is "." or "..". -/
def listDirDrain (env : DirIterEnv) (path : String) (fd : Int) :
    List RawStep → List DirEntry → List Call → Outcome (List DirEntry) × List Call
  | [], acc, log => listDirClose env fd acc log
  | step :: rest, acc, log =>
    let log := log ++ [Call.iomanxDread fd]
    if step.result < 0 then
      match step.dirent.name with
      | .valid n =>
        (.err ("Failed to list directories: " ++ (toString step.result ++ (" " ++ n))), log)
      | .invalid e =>
        (.err ("could not convert the directory name to a String: " ++ e), log)
    else if 0 < step.result then
      match step.dirent.name with
      | .valid n =>
        if n != "." && n != ".." then
          listDirDrain env path fd rest
            (acc ++ [{ entryName := n, mode := step.dirent.mode,
                       size := step.dirent.size, root := path }]) log
        else
          listDirDrain env path fd rest acc log
      | .invalid e =>
        (.err ("could not convert the directory name to a String: " ++ e), log)
    else
      listDirClose env fd acc log

/-- Models `Driver::list_dir`: build the `{device_root}/{path}` C string, `dopen`
it (nonnegative-means-handle convention), drain the handle and close it. -/
def listDir (env : DirIterEnv) (deviceRoot : String) (path : String) :
    Outcome (List DirEntry) × List Call :=
  match cstringNew (deviceRoot ++ ("/" ++ path)) with
  | .error e => (.err ("couldn't convert path: " ++ e), [])
  | .ok _ =>
    let log := [Call.iomanxDopen (deviceRoot ++ ("/" ++ path))]
    match ok_on_nonnegative_or_strerror env.strerror env.dopenRes
        "Failed to list directory" with
    | .error e => (.err e, log)
    | .ok fd => listDirDrain env path fd env.steps [] log

/-- The close-and-return tail of `PS2HDD::list_partitions`. -/
def listPartitionsClose (env : DirIterEnv) (fd : Int) (acc : List PartEntry)
    (log : List Call) : Outcome (List PartEntry) × List Call :=
  let log := log ++ [Call.iomanxClose fd]
  match ok_on_zero_or_strerror env.strerror env.closeRes
      "Failed to close root device handle" with
  | .error e => (.err e, log)
  | .ok _ => (.ok acc, log)

/-- The drain loop of `PS2HDD::list_partitions`: like `list_dir` but every
positive-result entry is pushed through `PartEntry::try_from` with no name
filtering; an undecodable name in the negative-result branch panics
(`expect`). -/
def listPartitionsDrain (env : DirIterEnv) (fd : Int) :
    List RawStep → List PartEntry → List Call → Outcome (List PartEntry) × List Call
  | [], acc, log => listPartitionsClose env fd acc log
  | step :: rest, acc, log =>
    let log := log ++ [Call.iomanxDread fd]
    if step.result < 0 then
      match step.dirent.name with
      | .valid n =>
        (.err ("Failed to list partitions: " ++ (toString step.result ++ (" " ++ n))), log)
      | .invalid _ => (.panicked, log)
    else if 0 < step.result then
      match partEntryTryFrom step.dirent with
      | .error e => (.err e, log)
      | .ok e => listPartitionsDrain env fd rest (acc ++ [e]) log
    else
      listPartitionsClose env fd acc log

/-- Models `PS2HDD::list_partitions`: `dopen` the partition-table root "hdd0:",
drain it into `PartEntry`s and close the handle. -/
def listPartitions (env : DirIterEnv) : Outcome (List PartEntry) × List Call :=
  let log := [Call.iomanxDopen "hdd0:"]
  match ok_on_nonnegative_or_strerror env.strerror env.dopenRes
      "Failed to list partitions" with
  | .error e => (.err e, log)
  | .ok fd => listPartitionsDrain env fd env.steps [] log

/-- The names the driver yields in the positive-result prefix of a dread
sequence: what a complete, successful drain reads before the terminator. -/
def drainedNames : List RawStep → List String
  | [] => []
  | step :: rest =>
    if 0 < step.result then
      match step.dirent.name with
      | .valid n => n :: drainedNames rest
      | .invalid _ => []
    else []

/-- Driver responses used to exercise C9: the driver yields ".", ".." and
"a" before reporting end of iteration. -/
def c9Env : DirIterEnv :=
  { dopenRes := 0
    steps := [⟨1, ⟨.valid ".", 0, 0⟩⟩, ⟨1, ⟨.valid "..", 0, 0⟩⟩, ⟨1, ⟨.valid "a", 0, 2⟩⟩]
    closeRes := 0
    strerror := fun _ => "" }

/-! ## lib.rs: the device session -/

/-- The observable identity of a Rust path argument: its `Display`
rendering and the result of `Path::to_str` (`none` for a non-UTF-8 path;
for a UTF-8 path the string equals the display form). -/
structure PathInfo where
  display : String
  utf8Str : Option String
deriving DecidableEq, Repr

/-- Models `driver::PFS`: the mount handle rooted at "pfs0:". -/
structure PFS where
  partitionName : String
deriving DecidableEq, Repr

/-- Models `driver::HDLFS`: the mount handle rooted at "hdl0:". -/
structure HDLFS where
  partitionName : String
deriving DecidableEq, Repr

/-- The `PS2HDD` struct: backing path plus the two optional mount slots. -/
structure PS2HDD where
  path : PathInfo
  pfs : Option PFS
  hdlfs : Option HDLFS
deriving DecidableEq, Repr

/-- The process-wide state `open`/`create`/`drop` touch: the
`IS_DEVICE_ACTIVE` atomic flag, the `atad_device_path` global buffer, and
the host filesystem's regular files (path ↦ byte size), which
`Path::is_file` consults and `File::create`/`set_len` modify. -/
structure World where
  isDeviceActive : Bool
  atadDevicePath : List Nat
  hostFiles : List (PathInfo × Nat)
deriving DecidableEq, Repr

/-- Models `Path::is_file`: does the path name an existing regular file? -/
def World.isFile (w : World) (p : PathInfo) : Bool :=
  (w.hostFiles.lookup p).isSome

/-- Create-or-replace a regular file of the given size on the host. -/
def World.setFile (w : World) (p : PathInfo) (size : Nat) : World :=
  { w with hostFiles := (p, size) :: w.hostFiles.filter (fun q => q.1 != p) }

/-- The byte-copy loop in `PS2HDD::open` writing the path into the
`atad_device_path` global: each byte is copied to its index, and after the
last byte a terminating 0 is written; with no bytes the loop writes
nothing. -/
def writeDevicePath (buf : List Nat) (bytes : List Nat) : List Nat :=
  if bytes = [] then buf else bytes ++ (0 :: buf.drop (bytes.length + 1))

/-- Reading `atad_device_path` back through `CStr::from_ptr`: the bytes up
to the first 0. -/
def readDevicePath (buf : List Nat) : List Nat :=
  buf.takeWhile (fun b => b != 0)

/-- Driver-subsystem responses consumed by one `open` call. -/
structure OpenEnv where
  initApaRes : Int
  initPfsRes : Int
  strerror : Int → String

/-- Models `PS2HDD::open`: claim the process-wide singleton flag atomically
(`swap(true)`); past that point every error branch resets the flag before
returning. Checks, in source order: the path names an existing file, is
UTF-8, converts to a C string (an interior nul panics via `expect`), and
fits the 255-byte buffer; then the path is written to `atad_device_path`
and read back (a mismatched or undecodable read-back panics); then
`_init_apa` and `_init_pfs` must return zero (each checked with the
zero-means-success convention; on failure `atad_close` is run, the flag is
reset and the message surfaced). -/
def PS2HDD.open (w : World) (env : OpenEnv) (p : PathInfo) :
    World × Outcome PS2HDD :=
  if w.isDeviceActive then
    (w, .err "Only one PS2HDD instance may be mounted at a time")
  else
    let w := { w with isDeviceActive := true }
    if w.isFile p = false then
      ({ w with isDeviceActive := false }, .err (p.display ++ ": No such file"))
    else
      match p.utf8Str with
      | none =>
        ({ w with isDeviceActive := false },
         .err "Path could not be converted to a C String")
      | some pathStr =>
        match cstringNew pathStr with
        | .error _ => (w, .panicked)
        | .ok bytes =>
          if 255 < bytes.length then
            ({ w with isDeviceActive := false },
             .err ("Path of length " ++
               (toString bytes.length ++ " is too long to be null-terminated")))
          else
            let w := { w with atadDevicePath := writeDevicePath w.atadDevicePath bytes }
            if readDevicePath w.atadDevicePath = bytes then
              match ok_on_zero_or_strerror env.strerror env.initApaRes
                  "Unable to initialize APA partition driver" with
              | .error message =>
                ({ w with isDeviceActive := false }, .err message)
              | .ok _ =>
                match ok_on_zero_or_strerror env.strerror env.initPfsRes
                    "Unable to initialize PFS filesystem driver" with
                | .error message =>
                  ({ w with isDeviceActive := false }, .err message)
                | .ok _ =>
                  (w, .ok { path := p, pfs := none, hdlfs := none })
            else
              (w, .panicked)

/-- Host I/O responses for `File::create` / `File::set_len` inside
`PS2HDD::create` (whether the OS lets the operation through, and the
`io::Error` display text if not). -/
structure HostEnv where
  canCreate : PathInfo → Bool
  createErr : PathInfo → String
  canSetLen : PathInfo → Bool
  setLenErr : PathInfo → String

/-- Models `PS2HDD::create`: `File::create` the path (per Rust std semantics this
creates a new file or truncates an existing one), `set_len` it to the
requested size, then delegate to `open`. The two host I/O failures return
their `io::Error` text before the singleton flag is ever consulted. -/
def PS2HDD.create (w : World) (henv : HostEnv) (env : OpenEnv) (p : PathInfo)
    (size : Nat) : World × Outcome PS2HDD :=
  if henv.canCreate p = false then
    (w, .err (henv.createErr p))
  else
    let w := w.setFile p 0
    if henv.canSetLen p = false then
      (w, .err (henv.setLenErr p))
    else
      let w := w.setFile p size
      PS2HDD.open w env p

/-- Result of `Drop for PS2HDD`: `ok`, or the `assert!` fired. -/
inductive DropOutcome where
  | ok
  | panicked
deriving DecidableEq, Repr

/-- Models `Drop for PS2HDD`: swap the singleton flag to false, assert it was
previously set (else panic), and `atad_close` the device. -/
def PS2HDD.dropSession (w : World) : World × DropOutcome :=
  let wasActive := w.isDeviceActive
  let w := { w with isDeviceActive := false }
  if wasActive then (w, .ok) else (w, .panicked)

/-- The preconditions under which `open` succeeds: singleton free, the path
an existing file whose UTF-8 form is nonempty, nul-free and at most 255
bytes, and both driver subsystems initialising with 0. -/
def goodOpen (w : World) (env : OpenEnv) (p : PathInfo) : Bool :=
  !w.isDeviceActive && w.isFile p &&
    (match p.utf8Str with
     | none => false
     | some s =>
       !(strBytes s).isEmpty && (strBytes s).all (fun b => b != 0) &&
         decide ((strBytes s).length ≤ 255)) &&
    env.initApaRes == 0 && env.initPfsRes == 0

/-! ## lib.rs: mounting -/

/-- Driver response for one `iomanx_mount` call, by mount point and
partition path. -/
structure MountEnv where
  mountRes : String → String → Int
  strerror : Int → String

/-- The private `PS2HDD::mount` helper: build the mount-point and
`hdd0:{partition}` C strings (a nul byte surfaces the `NulError` text) and
call `iomanx_mount`, checked with the zero-means-success convention. -/
def mountCall (env : MountEnv) (mountPoint : String) (partitionName : String) :
    Except String Unit :=
  match cstringNew mountPoint with
  | .error e => .error e
  | .ok _ =>
    match cstringNew ("hdd0:" ++ partitionName) with
    | .error e => .error e
    | .ok _ =>
      match ok_on_zero_or_strerror env.strerror
          (env.mountRes mountPoint ("hdd0:" ++ partitionName)) "Mounting failed" with
      | .error e => .error e
      | .ok _ => .ok ()

/-- Models `Option::as_ref(..).ok_or(..)`: the reference-retrieval tail of the
mount functions. -/
def optionRefOr {α : Type} (o : Option α) (msg : String) : Except String α :=
  match o with
  | some a => .ok a
  | none => .error msg

/-- Models `PS2HDD::mount_pfs`: fail if the PFS slot is occupied, otherwise mount
at "pfs0:" and store the new handle in the slot, returning it. -/
def PS2HDD.mountPfs (s : PS2HDD) (env : MountEnv) (partitionName : String) :
    PS2HDD × Except String PFS :=
  if s.pfs.isSome then
    (s, .error "A PFS partition is already mounted")
  else
    match mountCall env "pfs0:" partitionName with
    | .error e => (s, .error e)
    | .ok _ =>
      let s := { s with pfs := some { partitionName := partitionName } }
      (s, optionRefOr s.pfs "Failed to retrieve reference")

/-- Models `PS2HDD::umount_pfs`: fail if the PFS slot is empty, otherwise clear it
(in-process bookkeeping only; no driver call). -/
def PS2HDD.umountPfs (s : PS2HDD) : PS2HDD × Except String Unit :=
  if s.pfs.isNone then
    (s, .error "No PFS partition is mounted; nothing to unmount")
  else
    ({ s with pfs := none }, .ok ())

/-- Models `PS2HDD::mount_hdlfs`: fail if the HDLFS slot is occupied (with the
source's copy-pasted PFS wording), otherwise mount at "hdl0:" and store the
new handle. -/
def PS2HDD.mountHdlfs (s : PS2HDD) (env : MountEnv) (partitionName : String) :
    PS2HDD × Except String HDLFS :=
  if s.hdlfs.isSome then
    (s, .error "A PFS partition is already mounted")
  else
    match mountCall env "hdl0:" partitionName with
    | .error e => (s, .error e)
    | .ok _ =>
      let s := { s with hdlfs := some { partitionName := partitionName } }
      (s, optionRefOr s.hdlfs "Failed to retrieve reference")

/-- Models `PS2HDD::umount_hdlfs`: fail if the HDLFS slot is empty, otherwise
clear it. -/
def PS2HDD.umountHdlfs (s : PS2HDD) : PS2HDD × Except String Unit :=
  if s.hdlfs.isNone then
    (s, .error "No HDLFS partition is mounted; nothing to unmount")
  else
    ({ s with hdlfs := none }, .ok ())

/-! ## lib.rs: partition creation and formatting -/

/-- Models `u64::is_power_of_two` (exactly one set bit; 0 is not a power of
two). -/
def u64IsPowerOfTwo (n : Nat) : Bool :=
  n != 0 && (n &&& (n - 1)) == 0

/-- Driver responses consumed by one `create_partition` /
`format_partition` call: the `iomanx_open`, `iomanx_close` and
`iomanx_format` results. -/
structure PartOpEnv where
  openRes : Int
  closeRes : Int
  formatRes : Int
  strerror : Int → String

/-- Models `PS2HDD::format_partition`: map MBR to PFS, build the
`{tag-lowercase}0:` device and `hdd0:{name}` partition C strings, and
format with the fixed PFS tuning arguments, checked with the
zero-means-success convention. Returned alongside is the log of driver
calls issued. -/
def PS2HDD.formatPartition (env : PartOpEnv) (partitionName : String)
    (kind : FormattablePartitionKind) : Outcome Unit × List Call :=
  let kind : PartitionKind :=
    (match kind with
     | FormattablePartitionKind.MBR => FormattablePartitionKind.PFS
     | v => v).toPartitionKind
  match cstringNew (strToLower kind.asApaFsType ++ "0:") with
  | .error e => (.err e, [])
  | .ok _ =>
    match cstringNew ("hdd0:" ++ partitionName) with
    | .error e => (.err e, [])
    | .ok _ =>
      let log := [Call.iomanxFormat (strToLower kind.asApaFsType ++ "0:")
                    (some ("hdd0:" ++ partitionName))]
      match ok_on_zero_or_strerror env.strerror env.formatRes
          "PFS partition formatting failed" with
      | .error e => (.err e, log)
      | .ok _ => (.ok (), log)

/-- Models `PS2HDD::create_partition`: reject a size that is not a power of two
before any driver call; otherwise build the
`hdd0:{name},,,{size},{tag}` creation path (MBR mapped to PFS; size
rendered as `{n}M` below 1024 MiB and `{n/1024}G` from 1024 up), open it
read-write-create (the C-string conversion panics on a nul via `expect`),
close the returned handle, then format the partition. -/
def PS2HDD.createPartition (env : PartOpEnv) (partitionName : String)
    (kind : FormattablePartitionKind) (size : Nat) : Outcome Unit × List Call :=
  if u64IsPowerOfTwo size = false then
    (.err "Partition size must be a power of 2", [])
  else
    let partitionKind : PartitionKind :=
      (match kind with
       | FormattablePartitionKind.MBR => FormattablePartitionKind.PFS
       | v => v).toPartitionKind
    let sizeStr :=
      if 1024 ≤ size then toString (size / 1024) ++ "G" else toString size ++ "M"
    let mkpartStrpath :=
      "hdd0:" ++ (partitionName ++ (",,," ++ (sizeStr ++ ("," ++ partitionKind.asApaFsType))))
    match cstringNew mkpartStrpath with
    | .error _ => (.panicked, [])
    | .ok _ =>
      let log := [Call.iomanxOpen mkpartStrpath]
      match ok_on_nonnegative_or_strerror env.strerror env.openRes
          "Partition creation failed" with
      | .error e => (.err e, log)
      | .ok handle =>
        let log := log ++ [Call.iomanxClose handle]
        match ok_on_zero_or_strerror env.strerror env.closeRes
            "Failed to close partition handle" with
        | .error e => (.err e, log)
        | .ok _ =>
          let r := PS2HDD.formatPartition env partitionName kind
          (r.1, log ++ r.2)

/-! ## driver.rs: directory creation -/

/-- A Rust `Path` made of normal components, as the directory operations
use them: an absolute flag and the component list. `display` renders it
with `/` separators; `parent` drops the last component, and a root-only or
empty path has no parent — exactly `Path::parent` on such paths. -/
structure RPath where
  absolute : Bool
  comps : List String
deriving DecidableEq, Repr

/-- The `Display` rendering of the path. -/
def RPath.display (p : RPath) : String :=
  (if p.absolute then "/" else "") ++ String.intercalate "/" p.comps

/-- Models `Path::parent`. -/
def RPath.parent (p : RPath) : Option RPath :=
  match p.comps with
  | [] => none
  | _ => some ⟨p.absolute, p.comps.dropLast⟩

/-- Environment for the directory-creation operations: the `iomanx_mkdir`
result for the k-th mkdir call of the operation (the driver's state changes
as directories get created, so results are indexed by call count), the
host-side `Path::is_dir` probe, and the error-string table. -/
structure MkdirEnv where
  mkdirRes : Nat → Int
  isDir : RPath → Bool
  strerror : Int → String

/-- Models `driver::create_dir_impl`: build the `{device_root}/{path}` C string
and issue a single `iomanx_mkdir` with mode 0777 (511), checked with the
nonnegative-means-success convention. The call log (used as the mkdir call
counter) is threaded through. -/
def create_dir_impl (env : MkdirEnv) (deviceRoot : String) (path : RPath)
    (log : List Call) : Except String Unit × List Call :=
  match cstringNew (deviceRoot ++ ("/" ++ path.display)) with
  | .error e => (.error ("couldn't convert path: " ++ e), log)
  | .ok _ =>
    let log := log ++ [Call.iomanxMkdir (deviceRoot ++ ("/" ++ path.display)) 511]
    match ok_on_nonnegative_or_strerror env.strerror (env.mkdirRes (log.length - 1))
        "failed to create directory" with
    | .error e => (.error e, log)
    | .ok _ => (.ok (), log)

/-- Models `driver::create_dir_all_impl`: try `create_dir_impl`; on the exact
"parent missing" error string fall through to recursing on the parent and
retrying; on any other error succeed if the path is already a directory,
else fail; with no parent fail with "failed to create whole tree". -/
def create_dir_all_impl (env : MkdirEnv) (deviceRoot : String) (path : RPath)
    (log : List Call) : Except String Unit × List Call :=
  match create_dir_impl env deviceRoot path log with
  | (.ok _, log1) => (.ok (), log1)
  | (.error e, log1) =>
    if e = "failed to create directory: -2, No such file or directory" then
      match hp : path.parent with
      | none => (.error "failed to create whole tree", log1)
      | some par =>
        match create_dir_all_impl env deviceRoot par log1 with
        | (.error e2, log2) => (.error e2, log2)
        | (.ok _, log2) =>
          match create_dir_impl env deviceRoot path log2 with
          | (.ok _, log3) => (.ok (), log3)
          | (.error e3, log3) =>
            if env.isDir path then (.ok (), log3) else (.error e3, log3)
    else if env.isDir path then (.ok (), log1)
    else (.error e, log1)
termination_by path.comps.length
decreasing_by
  simp only [RPath.parent] at hp
  split at hp
  next => exact absurd hp (by simp)
  next heq =>
    cases hp
    simp only [List.length_dropLast]
    have hpos : 0 < path.comps.length := List.length_pos.mpr (fun h => heq h)
    omega

/-! ## Concrete worlds and environments used by individual claims -/

/-- Driver subsystems that initialise cleanly. -/
def openEnvOk : OpenEnv := ⟨0, 0, fun _ => ""⟩

/-- The zero-initialised `atad_device_path` static buffer. -/
def zeroBuf : List Nat := List.replicate 256 0

/-- A path that names no host file. -/
def pathMissing : PathInfo := ⟨"nonexistent.img", some "nonexistent.img"⟩

/-- The demo image path of the crate's tests. -/
def pathHdd : PathInfo := ⟨"hdd.img", some "hdd.img"⟩

/-- Fresh process: singleton free, zeroed buffer, no host files. -/
def worldEmpty : World := ⟨false, zeroBuf, []⟩

/-- Fresh process in which `hdd.img` already exists, 100 MiB large. -/
def worldWithHdd : World := ⟨false, zeroBuf, [(pathHdd, 104857600)]⟩

/-- A process that already holds the singleton claim. -/
def worldActive : World := ⟨true, zeroBuf, []⟩

/-- Host I/O that lets `File::create` and `set_len` through. -/
def hostEnvOk : HostEnv := ⟨fun _ => true, fun _ => "", fun _ => true, fun _ => ""⟩

/-- Host I/O that refuses `File::create` (say, an unwritable directory). -/
def hostEnvDenied : HostEnv :=
  ⟨fun _ => false, fun _ => "Permission denied (os error 13)", fun _ => true, fun _ => ""⟩

/-- A path in an unwritable directory. -/
def pathLocked : PathInfo := ⟨"/locked/x", some "/locked/x"⟩

/-- A driver whose `iomanx_mount` always succeeds. -/
def mountEnvOk : MountEnv := ⟨fun _ _ => 0, fun _ => ""⟩

/-- A session with a PFS partition already mounted. -/
def sessionPfsMounted : PS2HDD := ⟨pathHdd, some ⟨"TESTPART"⟩, none⟩

/-- Driver responses under which every partition-creation primitive
succeeds. -/
def partOpEnvOk : PartOpEnv := ⟨0, 0, 0, fun _ => ""⟩

/-- A driver whose `iomanx_mkdir` returns the positive handle-like value 1. -/
def mkdirEnvPositive : MkdirEnv := ⟨fun _ => 1, fun _ => false, fun _ => ""⟩

/-- A driver whose `iomanx_mkdir` always reports -17 (EEXIST). -/
def mkdirEnvEexist : MkdirEnv := ⟨fun _ => -17, fun _ => false, fun _ => ""⟩

/-- A driver whose `iomanx_mkdir` always reports -2 (ENOENT, parent
missing), with the usual error-string table entry for it. -/
def mkdirEnvParentMissing : MkdirEnv :=
  ⟨fun _ => -2, fun _ => false, fun n => if n = 2 then "No such file or directory" else ""⟩

/-! ## Theorems -/

lemma firstNulIdx_eq_none {l : List Nat} (h : l.all (fun b => b != 0) = true) :
    firstNulIdx l = none := by
  induction l with
  | nil => rfl
  | cons a t ih =>
    simp only [List.all_cons, Bool.and_eq_true] at h
    have ha : ¬ a = 0 := by simpa using h.1
    simp [firstNulIdx, ha, ih h.2]

lemma takeWhile_append_zero {l rest : List Nat} (h : l.all (fun b => b != 0) = true) :
    (l ++ 0 :: rest).takeWhile (fun b => b != 0) = l := by
  induction l with
  | nil => simp
  | cons a t ih =>
    simp only [List.all_cons, Bool.and_eq_true] at h
    simp [List.takeWhile_cons, h.1, ih h.2]

lemma open_ok_of_goodOpen {w : World} {env : OpenEnv} {p : PathInfo}
    (h : goodOpen w env p = true) :
    ((PS2HDD.open w env p).2).isOk = true ∧
    (PS2HDD.open w env p).1.isDeviceActive = true ∧
    (PS2HDD.open w env p).1.hostFiles = w.hostFiles := by
  unfold goodOpen at h
  simp only [Bool.and_eq_true, Bool.not_eq_true'] at h
  obtain ⟨⟨⟨⟨hact, hfile⟩, hmatch⟩, hapa⟩, hpfs⟩ := h
  cases hu : p.utf8Str with
  | none => rw [hu] at hmatch; simp at hmatch
  | some s =>
    rw [hu] at hmatch
    simp only [Bool.and_eq_true] at hmatch
    obtain ⟨⟨hne, hall⟩, hlen⟩ := hmatch
    have hapa' : env.initApaRes = 0 := by simpa using hapa
    have hpfs' : env.initPfsRes = 0 := by simpa using hpfs
    have hcstr : cstringNew s = .ok (strBytes s) := by
      unfold cstringNew
      rw [firstNulIdx_eq_none hall]
    have hlen' : ¬ 255 < (strBytes s).length := by
      simp only [decide_eq_true_eq] at hlen
      omega
    have hbytes_ne : ¬ strBytes s = [] := by
      simpa [List.isEmpty_iff] using hne
    have hread :
        readDevicePath (writeDevicePath w.atadDevicePath (strBytes s)) = strBytes s := by
      unfold writeDevicePath readDevicePath
      rw [if_neg hbytes_ne]
      exact takeWhile_append_zero hall
    simp only [World.isFile] at hfile
    simp [PS2HDD.open, hact, World.isFile, hfile, hu, hcstr, hlen', hread,
      hapa', hpfs', ok_on_zero_or_strerror, ok_on_pred_or_strerror, Outcome.isOk]

/-- C2: if `open` fails for any reason after the singleton claim has
succeeded, the claim is released before `open` returns its error; the host
file table is untouched; in particular a nonexistent file yields the
not-found error with the singleton unclaimed, and any later `open` of a
valid path (singleton free, existing file, sound encoding, clean driver
initialisation) succeeds. -/
theorem c2_open_releases_singleton_on_error :
    ∀ (w : World) (env : OpenEnv) (p : PathInfo), w.isDeviceActive = false →
      (∀ (w' : World) (msg : String),
          PS2HDD.open w env p = (w', .err msg) → w'.isDeviceActive = false) ∧
      (PS2HDD.open w env p).1.hostFiles = w.hostFiles ∧
      (w.isFile p = false →
          PS2HDD.open w env p =
            ({ w with isDeviceActive := false }, .err (p.display ++ ": No such file"))) ∧
      (∀ (w2 : World) (env2 : OpenEnv) (p2 : PathInfo), goodOpen w2 env2 p2 = true →
          ((PS2HDD.open w2 env2 p2).2).isOk = true) := by
  intro w env p hact
  refine ⟨?_, ?_, ?_, fun w2 env2 p2 hg => (open_ok_of_goodOpen hg).1⟩
  · intro w' msg hopen
    simp only [PS2HDD.open, hact, Bool.false_eq_true, if_false] at hopen
    repeat' split at hopen
    all_goals
      obtain ⟨h1, h2⟩ := Prod.mk.injEq .. ▸ hopen
    all_goals
      first
        | (subst h1; rfl)
        | exact absurd h2 (by simp)
  · simp only [PS2HDD.open, hact, Bool.false_eq_true, if_false]
    repeat' split
    all_goals rfl
  · intro hfile
    simp only [World.isFile] at hfile
    simp [PS2HDD.open, hact, World.isFile, hfile]

theorem c2_open_releases_singleton_on_error_witness :
    worldEmpty.isDeviceActive = false ∧
    worldEmpty.isFile pathMissing = false ∧
    PS2HDD.open worldEmpty openEnvOk pathMissing =
      ({ worldEmpty with isDeviceActive := false },
       .err ("nonexistent.img" ++ ": No such file")) ∧
    goodOpen worldWithHdd openEnvOk pathHdd = true ∧
    ((PS2HDD.open worldWithHdd openEnvOk pathHdd).2).isOk = true :=
  ⟨rfl, rfl,
   (c2_open_releases_singleton_on_error worldEmpty openEnvOk pathMissing rfl).2.2.1 rfl,
   by decide,
   (c2_open_releases_singleton_on_error worldEmpty openEnvOk pathMissing rfl).2.2.2
     worldWithHdd openEnvOk pathHdd (by decide)⟩

/-- C1 (counterexample): with the singleton held, a `create` whose
`File::create` is refused by the host fails with the host I/O error, not
with the singleton error — so not every subsequent open/create call fails
with the already-active error. -/
theorem c1_singleton_exclusion_counterexample :
    worldActive.isDeviceActive = true ∧
    (PS2HDD.create worldActive hostEnvDenied openEnvOk pathLocked 42).2 ≠
      Outcome.err "Only one PS2HDD instance may be mounted at a time" := by
  exact ⟨rfl, by decide⟩

/-- C1 (amended): while one session is open, every `open` call fails with
the singleton error and leaves the state unchanged; a `create` call fails
with the singleton error when the host file creation and resizing go
through, and otherwise with the host I/O error; dropping the session
clears the flag (without panicking), after which an open of a valid path
succeeds again. -/
theorem c1_singleton_exclusion_amended :
    ∀ (w : World) (henv : HostEnv) (env : OpenEnv) (p : PathInfo) (size : Nat),
      w.isDeviceActive = true →
      PS2HDD.open w env p =
        (w, .err "Only one PS2HDD instance may be mounted at a time") ∧
      (henv.canCreate p = true → henv.canSetLen p = true →
        (PS2HDD.create w henv env p size).2 =
          .err "Only one PS2HDD instance may be mounted at a time") ∧
      (henv.canCreate p = false →
        (PS2HDD.create w henv env p size).2 = .err (henv.createErr p)) ∧
      (henv.canCreate p = true → henv.canSetLen p = false →
        (PS2HDD.create w henv env p size).2 = .err (henv.setLenErr p)) ∧
      ((PS2HDD.dropSession w).1.isDeviceActive = false ∧
        (PS2HDD.dropSession w).2 = DropOutcome.ok) ∧
      (∀ (env2 : OpenEnv) (p2 : PathInfo),
        goodOpen (PS2HDD.dropSession w).1 env2 p2 = true →
        ((PS2HDD.open (PS2HDD.dropSession w).1 env2 p2).2).isOk = true) := by
  intro w henv env p size hact
  refine ⟨?_, ?_, ?_, ?_, ?_, fun env2 p2 hg => (open_ok_of_goodOpen hg).1⟩
  · simp [PS2HDD.open, hact]
  · intro h1 h2
    simp [PS2HDD.create, h1, h2, World.setFile, PS2HDD.open, hact]
  · intro h1
    simp [PS2HDD.create, h1]
  · intro h1 h2
    simp [PS2HDD.create, h1, h2]
  · exact ⟨by simp [PS2HDD.dropSession, hact], by simp [PS2HDD.dropSession, hact]⟩

theorem c1_singleton_exclusion_witness :
    worldActive.isDeviceActive = true ∧
    hostEnvOk.canCreate pathHdd = true ∧
    hostEnvOk.canSetLen pathHdd = true ∧
    PS2HDD.open worldActive openEnvOk pathHdd =
      (worldActive, .err "Only one PS2HDD instance may be mounted at a time") ∧
    (PS2HDD.create worldActive hostEnvOk openEnvOk pathHdd 42).2 =
      .err "Only one PS2HDD instance may be mounted at a time" :=
  ⟨rfl, rfl, rfl,
   (c1_singleton_exclusion_amended worldActive hostEnvOk openEnvOk pathHdd 42 rfl).1,
   (c1_singleton_exclusion_amended worldActive hostEnvOk openEnvOk pathHdd 42 rfl).2.1
     rfl rfl⟩

/-- C3 (code bug evidence): `create` on a path that already exists does not
fail — `File::create` truncates the existing 100 MiB `hdd.img` and the call
goes on to succeed, leaving the file resized to the requested size. This
contradicts the claim (and the function's own doc comment) that `create`
fails when the path already exists, leaving the existing file unmodified. -/
theorem c3_create_truncates_existing_file :
    worldWithHdd.isFile pathHdd = true ∧
    worldWithHdd.hostFiles.lookup pathHdd = some 104857600 ∧
    ((PS2HDD.create worldWithHdd hostEnvOk openEnvOk pathHdd 6442450944).2).isOk = true ∧
    (PS2HDD.create worldWithHdd hostEnvOk openEnvOk pathHdd
        6442450944).1.hostFiles.lookup pathHdd = some 6442450944 :=
  ⟨rfl, rfl, by decide, by decide⟩

lemma string_ne_of_getElem {s t : String} (i : Nat) (h : s.data[i]? ≠ t.data[i]?) :
    s ≠ t :=
  fun he => h (by rw [he])

lemma append_data_getElem_left (a b : String) (i : Nat) (hi : i < a.data.length) :
    (a ++ b).data[i]? = a.data[i]? := by
  rw [String.data_append]
  exact List.getElem?_append_left hi

lemma append_ne_of_getElem (a b t : String) (i : Nat) (hi : i < a.data.length)
    (h : a.data[i]? ≠ t.data[i]?) : a ++ b ≠ t :=
  string_ne_of_getElem i (by rw [append_data_getElem_left a b i hi]; exact h)

lemma ok_on_pred_error {strerror : Int → String} {res : Int} {msg : String}
    {f : Int → Bool} {e : String}
    (h : ok_on_pred_or_strerror strerror res msg f = .error e) :
    e = msg ++ (": " ++ (toString res ++ (", " ++ strerror (-res)))) := by
  unfold ok_on_pred_or_strerror at h
  split at h
  · injection h with h1
    exact h1.symm
  · exact absurd h (by simp)

lemma cstringNew_error_msg {s e : String} (h : cstringNew s = .error e) :
    ∃ i : Nat, e = "nul byte found in provided data at position: " ++ toString i := by
  unfold cstringNew at h
  split at h
  · rename_i i hi
    injection h with h1
    exact ⟨i, h1.symm⟩
  · exact absurd h (by simp)

lemma mountCall_error_ne_busy {env : MountEnv} {mp pn e : String}
    (h : mountCall env mp pn = .error e) :
    e ≠ "A PFS partition is already mounted" := by
  unfold mountCall at h
  split at h
  · rename_i e1 he1
    injection h with h1
    subst h1
    obtain ⟨i, hi⟩ := cstringNew_error_msg he1
    rw [hi]
    exact append_ne_of_getElem _ _ _ 0 (by decide) (by decide)
  · split at h
    · rename_i e1 he1
      injection h with h1
      subst h1
      obtain ⟨i, hi⟩ := cstringNew_error_msg he1
      rw [hi]
      exact append_ne_of_getElem _ _ _ 0 (by decide) (by decide)
    · split at h
      · rename_i e1 he1
        injection h with h1
        subst h1
        unfold ok_on_zero_or_strerror at he1
        rw [ok_on_pred_error he1]
        exact append_ne_of_getElem _ _ _ 0 (by decide) (by decide)
      · exact absurd h (by simp)

lemma mountPfs_busy_iff (s : PS2HDD) (env : MountEnv) (name : String) :
    (s.mountPfs env name).2 = .error "A PFS partition is already mounted" ↔
      s.pfs.isSome = true := by
  cases hp : s.pfs with
  | some v => simp [PS2HDD.mountPfs, hp]
  | none =>
    cases hm : mountCall env "pfs0:" name with
    | error e =>
      have hne := mountCall_error_ne_busy hm
      simp [PS2HDD.mountPfs, hp, hm, hne]
    | ok u => simp [PS2HDD.mountPfs, hp, hm, optionRefOr]

lemma mountHdlfs_busy_iff (s : PS2HDD) (env : MountEnv) (name : String) :
    (s.mountHdlfs env name).2 = .error "A PFS partition is already mounted" ↔
      s.hdlfs.isSome = true := by
  cases hp : s.hdlfs with
  | some v => simp [PS2HDD.mountHdlfs, hp]
  | none =>
    cases hm : mountCall env "hdl0:" name with
    | error e =>
      have hne := mountCall_error_ne_busy hm
      simp [PS2HDD.mountHdlfs, hp, hm, hne]
    | ok u => simp [PS2HDD.mountHdlfs, hp, hm, optionRefOr]

/-- C4: the mount state machine — `mount_pfs` / `mount_hdlfs` fail with the
already-mounted error exactly when their slot is occupied (leaving the
session unchanged), and with an empty slot and a successful driver mount
they store a handle bound to the partition name at the fixed device root;
`umount_pfs` / `umount_hdlfs` fail exactly when their slot is empty and
otherwise clear it (bookkeeping only), so umount followed by mount succeeds
again. -/
theorem c4_mount_state_machine :
    ∀ (s : PS2HDD) (env : MountEnv) (name : String),
      ((s.mountPfs env name).2 = .error "A PFS partition is already mounted" ↔
        s.pfs.isSome = true) ∧
      (s.pfs.isSome = true →
        s.mountPfs env name = (s, .error "A PFS partition is already mounted")) ∧
      (s.pfs = none → mountCall env "pfs0:" name = .ok () →
        s.mountPfs env name =
          ({ s with pfs := some { partitionName := name } },
           .ok { partitionName := name })) ∧
      ((s.umountPfs.2 = .error "No PFS partition is mounted; nothing to unmount") ↔
        s.pfs = none) ∧
      (s.pfs.isSome = true → s.umountPfs = ({ s with pfs := none }, .ok ())) ∧
      (s.pfs.isSome = true → mountCall env "pfs0:" name = .ok () →
        ((s.umountPfs.1).mountPfs env name).2 = .ok { partitionName := name }) ∧
      ((s.mountHdlfs env name).2 = .error "A PFS partition is already mounted" ↔
        s.hdlfs.isSome = true) ∧
      (s.hdlfs.isSome = true →
        s.mountHdlfs env name = (s, .error "A PFS partition is already mounted")) ∧
      (s.hdlfs = none → mountCall env "hdl0:" name = .ok () →
        s.mountHdlfs env name =
          ({ s with hdlfs := some { partitionName := name } },
           .ok { partitionName := name })) ∧
      ((s.umountHdlfs.2 = .error "No HDLFS partition is mounted; nothing to unmount") ↔
        s.hdlfs = none) ∧
      (s.hdlfs.isSome = true → s.umountHdlfs = ({ s with hdlfs := none }, .ok ())) ∧
      (s.hdlfs.isSome = true → mountCall env "hdl0:" name = .ok () →
        ((s.umountHdlfs.1).mountHdlfs env name).2 = .ok { partitionName := name }) := by
  intro s env name
  refine ⟨mountPfs_busy_iff s env name, ?_, ?_, ?_, ?_, ?_,
          mountHdlfs_busy_iff s env name, ?_, ?_, ?_, ?_, ?_⟩
  · intro hp
    simp [PS2HDD.mountPfs, hp]
  · intro hp hm
    simp [PS2HDD.mountPfs, hp, hm, optionRefOr]
  · cases hp : s.pfs with
    | some v => simp [PS2HDD.umountPfs, hp]
    | none => simp [PS2HDD.umountPfs, hp]
  · intro hp
    cases hq : s.pfs with
    | some v => simp [PS2HDD.umountPfs, hq]
    | none => rw [hq] at hp; simp at hp
  · intro hp hm
    cases hq : s.pfs with
    | some v => simp [PS2HDD.umountPfs, hq, PS2HDD.mountPfs, hm, optionRefOr]
    | none => rw [hq] at hp; simp at hp
  · intro hp
    simp [PS2HDD.mountHdlfs, hp]
  · intro hp hm
    simp [PS2HDD.mountHdlfs, hp, hm, optionRefOr]
  · cases hp : s.hdlfs with
    | some v => simp [PS2HDD.umountHdlfs, hp]
    | none => simp [PS2HDD.umountHdlfs, hp]
  · intro hp
    cases hq : s.hdlfs with
    | some v => simp [PS2HDD.umountHdlfs, hq]
    | none => rw [hq] at hp; simp at hp
  · intro hp hm
    cases hq : s.hdlfs with
    | some v => simp [PS2HDD.umountHdlfs, hq, PS2HDD.mountHdlfs, hm, optionRefOr]
    | none => rw [hq] at hp; simp at hp

theorem c4_mount_state_machine_witness :
    sessionPfsMounted.pfs.isSome = true ∧
    mountCall mountEnvOk "pfs0:" "TESTPART" = .ok () ∧
    ((sessionPfsMounted.umountPfs.1).mountPfs mountEnvOk "TESTPART").2 =
      .ok { partitionName := "TESTPART" } :=
  ⟨rfl, rfl,
   (c4_mount_state_machine sessionPfsMounted mountEnvOk "TESTPART").2.2.2.2.2.1 rfl rfl⟩

lemma formatPartition_ne_size_err (env : PartOpEnv) (name : String)
    (kind : FormattablePartitionKind) :
    (PS2HDD.formatPartition env name kind).1 ≠
      Outcome.err "Partition size must be a power of 2" := by
  cases kind
  all_goals
    simp only [PS2HDD.formatPartition]
  all_goals
    split
    · rename_i e he
      obtain ⟨i, hi⟩ := cstringNew_error_msg he
      show Outcome.err e ≠ _
      intro hc
      injection hc with h1
      exact append_ne_of_getElem _ _ _ 0 (by decide) (by decide) (hi ▸ h1)
    · split
      · rename_i e he
        obtain ⟨i, hi⟩ := cstringNew_error_msg he
        show Outcome.err e ≠ _
        intro hc
        injection hc with h1
        exact append_ne_of_getElem _ _ _ 0 (by decide) (by decide) (hi ▸ h1)
      · split
        · rename_i e he
          unfold ok_on_zero_or_strerror at he
          have hmsg := ok_on_pred_error he
          show Outcome.err e ≠ _
          intro hc
          injection hc with h1
          exact append_ne_of_getElem _ _ _ 1 (by decide) (by decide) (hmsg ▸ h1)
        · show Outcome.ok () ≠ _
          simp

/-- C5: `create_partition` returns the invalid-size error with an empty
driver-call log (so before issuing any driver call) exactly when the size
in MiB is not a power of two; it fails that way for 100, 130 and 200, and
for 128, 256 and 1024 the size check passes — with a successful driver the
call goes through. -/
theorem c5_create_partition_size_check :
    ∀ (env : PartOpEnv) (name : String) (kind : FormattablePartitionKind) (size : Nat),
      (u64IsPowerOfTwo size = false →
        PS2HDD.createPartition env name kind size =
          (.err "Partition size must be a power of 2", [])) ∧
      (u64IsPowerOfTwo size = true →
        (PS2HDD.createPartition env name kind size).1 ≠
          .err "Partition size must be a power of 2") ∧
      (u64IsPowerOfTwo 100 = false ∧ u64IsPowerOfTwo 130 = false ∧
        u64IsPowerOfTwo 200 = false ∧ u64IsPowerOfTwo 128 = true ∧
        u64IsPowerOfTwo 256 = true ∧ u64IsPowerOfTwo 1024 = true) ∧
      (PS2HDD.createPartition partOpEnvOk "TESTPART" .PFS 128).1 = .ok () ∧
      (PS2HDD.createPartition partOpEnvOk "TESTPART" .PFS 256).1 = .ok () ∧
      (PS2HDD.createPartition partOpEnvOk "TESTPART" .PFS 1024).1 = .ok () := by
  intro env name kind size
  refine ⟨?_, ?_, by decide, by decide, by decide, by decide⟩
  · intro h
    simp [PS2HDD.createPartition, h]
  · intro h
    simp only [PS2HDD.createPartition, h, Bool.true_eq_false, if_false]
    split
    · simp
    · split
      · rename_i e he
        unfold ok_on_nonnegative_or_strerror at he
        have hmsg := ok_on_pred_error he
        show Outcome.err e ≠ _
        intro hc
        injection hc with h1
        exact append_ne_of_getElem _ _ _ 10 (by decide) (by decide) (hmsg ▸ h1)
      · split
        · rename_i e he
          unfold ok_on_zero_or_strerror at he
          have hmsg := ok_on_pred_error he
          show Outcome.err e ≠ _
          intro hc
          injection hc with h1
          exact append_ne_of_getElem _ _ _ 0 (by decide) (by decide) (hmsg ▸ h1)
        · show ((PS2HDD.formatPartition env name kind).1, _).1 ≠ _
          exact formatPartition_ne_size_err env name kind

theorem c5_create_partition_size_check_witness :
    u64IsPowerOfTwo 100 = false ∧
    PS2HDD.createPartition partOpEnvOk "TESTPART" .PFS 100 =
      (.err "Partition size must be a power of 2", []) :=
  ⟨by decide,
   (c5_create_partition_size_check partOpEnvOk "TESTPART" .PFS 100).1 (by decide)⟩

/-- C7 (counterexample): `create_dir` translates the mkdir result with the
nonnegative-means-success decoder, so a positive (nonzero) primitive result
is treated as success, not failure. -/
theorem c7_create_dir_counterexample :
    mkdirEnvPositive.mkdirRes 0 = 1 ∧
    (create_dir_impl mkdirEnvPositive "pfs0:" ⟨false, ["a"]⟩ []).1 = .ok () :=
  ⟨rfl, rfl⟩

/-- C7 (amended): for every path whose `{device_root}/{path}` form converts
to a C string, `create_dir` issues exactly one directory-create primitive
call with mode 0777 and fails exactly when the primitive result is negative
(which covers the "already exists" (-EEXIST) and "parent missing" (-ENOENT)
results; a nonnegative result is success). A path that does not convert
issues no driver call. -/
theorem c7_create_dir_amended :
    ∀ (env : MkdirEnv) (dr : String) (p : RPath) (log : List Call),
      ((cstringNew (dr ++ ("/" ++ p.display))).isOk = true →
        (create_dir_impl env dr p log).2 =
          log ++ [Call.iomanxMkdir (dr ++ ("/" ++ p.display)) 511] ∧
        ((create_dir_impl env dr p log).1.isOk = false ↔
          env.mkdirRes log.length < 0)) ∧
      ((cstringNew (dr ++ ("/" ++ p.display))).isOk = false →
        (create_dir_impl env dr p log).2 = log) := by
  intro env dr p log
  constructor
  · intro h
    cases hc : cstringNew (dr ++ ("/" ++ p.display)) with
    | error e => rw [hc] at h; simp [Except.isOk, Except.toBool] at h
    | ok bytes =>
      constructor
      · simp only [create_dir_impl, hc]
        split <;> rfl
      · simp only [create_dir_impl, hc]
        have hidx :
            (log ++ [Call.iomanxMkdir (dr ++ ("/" ++ p.display)) 511]).length - 1 =
              log.length := by simp
        rw [hidx]
        unfold ok_on_nonnegative_or_strerror ok_on_pred_or_strerror
        by_cases hlt : env.mkdirRes log.length < 0
        · simp [hlt, Except.isOk, Except.toBool]
        · simp [hlt, Except.isOk, Except.toBool]
  · intro h
    cases hc : cstringNew (dr ++ ("/" ++ p.display)) with
    | ok bytes => rw [hc] at h; simp [Except.isOk, Except.toBool] at h
    | error e => simp [create_dir_impl, hc]

theorem c7_create_dir_amended_witness :
    (cstringNew ("pfs0:" ++ ("/" ++ (RPath.mk false ["a"]).display))).isOk = true ∧
    ((create_dir_impl mkdirEnvEexist "pfs0:" ⟨false, ["a"]⟩ []).2 =
      [] ++ [Call.iomanxMkdir ("pfs0:" ++ ("/" ++ (RPath.mk false ["a"]).display)) 511] ∧
     ((create_dir_impl mkdirEnvEexist "pfs0:" ⟨false, ["a"]⟩ []).1.isOk = false ↔
       mkdirEnvEexist.mkdirRes ([] : List Call).length < 0)) :=
  ⟨rfl, (c7_create_dir_amended mkdirEnvEexist "pfs0:" ⟨false, ["a"]⟩ []).1 rfl⟩

lemma create_dir_impl_log_extends (env : MkdirEnv) (dr : String) (p : RPath)
    (log : List Call) :
    ∃ rest, (create_dir_impl env dr p log).2 = log ++ rest := by
  unfold create_dir_impl
  split
  · exact ⟨[], by simp⟩
  · dsimp only
    split <;> exact ⟨[Call.iomanxMkdir (dr ++ ("/" ++ p.display)) 511], rfl⟩

lemma create_dir_all_impl_log_extends :
    ∀ (n : Nat) (p : RPath), p.comps.length ≤ n →
      ∀ (env : MkdirEnv) (dr : String) (log : List Call),
        ∃ rest, (create_dir_all_impl env dr p log).2 = log ++ rest := by
  intro n
  induction n with
  | zero =>
    intro p hlen env dr log
    have hnil : p.comps = [] := by
      cases hc : p.comps with
      | nil => rfl
      | cons a t => rw [hc] at hlen; simp at hlen
    rw [create_dir_all_impl]
    obtain ⟨r1, hr1⟩ := create_dir_impl_log_extends env dr p log
    split
    · rename_i u log1 heq
      exact ⟨r1, by rw [← hr1, heq]⟩
    · rename_i e log1 heq
      have hlog1 : log1 = log ++ r1 := by rw [← hr1, heq]
      split
      · split
        · exact ⟨r1, hlog1⟩
        · rename_i par hpar
          exfalso
          unfold RPath.parent at hpar
          rw [hnil] at hpar
          simp at hpar
      · split
        · exact ⟨r1, hlog1⟩
        · exact ⟨r1, hlog1⟩
  | succ n ih =>
    intro p hlen env dr log
    rw [create_dir_all_impl]
    obtain ⟨r1, hr1⟩ := create_dir_impl_log_extends env dr p log
    split
    · rename_i u log1 heq
      exact ⟨r1, by rw [← hr1, heq]⟩
    · rename_i e log1 heq
      have hlog1 : log1 = log ++ r1 := by rw [← hr1, heq]
      split
      · split
        · exact ⟨r1, hlog1⟩
        · rename_i par hpar
          have hplen : par.comps.length ≤ n := by
            unfold RPath.parent at hpar
            split at hpar
            · exact absurd hpar (by simp)
            · cases hpar
              simp only [List.length_dropLast]
              omega
          obtain ⟨r2, hr2⟩ := ih par hplen env dr log1
          split
          · rename_i e2 log2 heq2
            have hlog2 : log2 = log1 ++ r2 := by rw [← hr2, heq2]
            exact ⟨r1 ++ r2, by rw [hlog2, hlog1, List.append_assoc]⟩
          · rename_i u2 log2 heq2
            have hlog2 : log2 = log1 ++ r2 := by rw [← hr2, heq2]
            obtain ⟨r3, hr3⟩ := create_dir_impl_log_extends env dr p log2
            split
            · rename_i u3 log3 heq3
              have hlog3 : log3 = log2 ++ r3 := by rw [← hr3, heq3]
              exact ⟨r1 ++ (r2 ++ r3), by
                rw [hlog3, hlog2, hlog1]
                simp [List.append_assoc]⟩
            · rename_i e3 log3 heq3
              have hlog3 : log3 = log2 ++ r3 := by rw [← hr3, heq3]
              split
              · exact ⟨r1 ++ (r2 ++ r3), by
                  rw [hlog3, hlog2, hlog1]
                  simp [List.append_assoc]⟩
              · exact ⟨r1 ++ (r2 ++ r3), by
                  rw [hlog3, hlog2, hlog1]
                  simp [List.append_assoc]⟩
      · split
        · exact ⟨r1, hlog1⟩
        · exact ⟨r1, hlog1⟩

lemma create_dir_impl_result (env : MkdirEnv) (dr : String) (p : RPath)
    (log : List Call) (bytes : List Nat)
    (hc : cstringNew (dr ++ ("/" ++ p.display)) = .ok bytes) :
    create_dir_impl env dr p log =
      ((ok_on_nonnegative_or_strerror env.strerror (env.mkdirRes log.length)
          "failed to create directory").map (fun _ => ()),
       log ++ [Call.iomanxMkdir (dr ++ ("/" ++ p.display)) 511]) := by
  simp only [create_dir_impl, hc]
  have hidx :
      (log ++ [Call.iomanxMkdir (dr ++ ("/" ++ p.display)) 511]).length - 1 =
        log.length := by simp
  rw [hidx]
  split
  · rename_i e he
    rw [he]
    rfl
  · rename_i n he
    rw [he]
    rfl

/-- C8: `create_dir_all` first attempts `create_dir` on the path (the first
driver call is the mkdir of the path itself); when that fails with the
parent-missing error it recurses on the parent and then retries the path;
when a failure at a probe point coincides with the path already being a
directory the call succeeds (idempotence); and when the path has no parent
and creation still reports parent-missing it fails with the
whole-tree error. -/
theorem c8_create_dir_all_recursion :
    ∀ (env : MkdirEnv) (dr : String) (p : RPath) (log : List Call),
      ((cstringNew (dr ++ ("/" ++ p.display))).isOk = true →
        ∃ rest, (create_dir_all_impl env dr p log).2 =
          log ++ (Call.iomanxMkdir (dr ++ ("/" ++ p.display)) 511 :: rest)) ∧
      (∀ (bytes : List Nat) (par : RPath) (log2 : List Call),
        cstringNew (dr ++ ("/" ++ p.display)) = .ok bytes →
        env.mkdirRes log.length = -2 →
        env.strerror 2 = "No such file or directory" →
        p.parent = some par →
        create_dir_all_impl env dr par
            (log ++ [Call.iomanxMkdir (dr ++ ("/" ++ p.display)) 511]) =
          (.ok (), log2) →
        0 ≤ env.mkdirRes log2.length →
        create_dir_all_impl env dr p log =
          (.ok (), log2 ++ [Call.iomanxMkdir (dr ++ ("/" ++ p.display)) 511])) ∧
      (∀ (e : String) (log1 : List Call),
        create_dir_impl env dr p log = (.error e, log1) →
        e ≠ "failed to create directory: -2, No such file or directory" →
        env.isDir p = true →
        create_dir_all_impl env dr p log = (.ok (), log1)) ∧
      (∀ (log1 log2 log3 : List Call) (e3 : String) (par : RPath),
        create_dir_impl env dr p log =
          (.error "failed to create directory: -2, No such file or directory", log1) →
        p.parent = some par →
        create_dir_all_impl env dr par log1 = (.ok (), log2) →
        create_dir_impl env dr p log2 = (.error e3, log3) →
        env.isDir p = true →
        create_dir_all_impl env dr p log = (.ok (), log3)) ∧
      (∀ (log1 : List Call),
        p.parent = none →
        create_dir_impl env dr p log =
          (.error "failed to create directory: -2, No such file or directory", log1) →
        create_dir_all_impl env dr p log =
          (.error "failed to create whole tree", log1)) := by
  intro env dr p log
  refine ⟨?_, ?_, ?_, ?_, ?_⟩
  · intro h
    cases hc : cstringNew (dr ++ ("/" ++ p.display)) with
    | error e => rw [hc] at h; simp [Except.isOk, Except.toBool] at h
    | ok bytes =>
      rw [create_dir_all_impl, create_dir_impl_result env dr p log bytes hc]
      split
      · rename_i u1 log1 heq1
        have hlog1 : log ++ [Call.iomanxMkdir (dr ++ ("/" ++ p.display)) 511] = log1 := by
          obtain ⟨-, h2⟩ := Prod.mk.injEq .. ▸ heq1
          exact h2
        exact ⟨[], by rw [← hlog1]⟩
      · rename_i e log1 heq
        obtain ⟨-, hlog1⟩ := Prod.mk.injEq .. ▸ heq
        subst hlog1
        split
        · split
          · exact ⟨[], by simp⟩
          · rename_i par hpar
            obtain ⟨r2, hr2⟩ :=
              create_dir_all_impl_log_extends par.comps.length par le_rfl env dr
                (log ++ [Call.iomanxMkdir (dr ++ ("/" ++ p.display)) 511])
            split
            · rename_i e2 log2 heq2
              have hlog2 :
                  (log ++ [Call.iomanxMkdir (dr ++ ("/" ++ p.display)) 511]) ++ r2 =
                    log2 := by rw [← hr2, heq2]
              exact ⟨r2, by rw [← hlog2]; simp⟩
            · rename_i u2 log2 heq2
              have hlog2 :
                  (log ++ [Call.iomanxMkdir (dr ++ ("/" ++ p.display)) 511]) ++ r2 =
                    log2 := by rw [← hr2, heq2]
              obtain ⟨r3, hr3⟩ := create_dir_impl_log_extends env dr p log2
              split
              · rename_i u3 log3 heq3
                have hlog3 : log2 ++ r3 = log3 := by rw [← hr3, heq3]
                exact ⟨r2 ++ r3, by rw [← hlog3, ← hlog2]; simp⟩
              · rename_i e3 log3 heq3
                have hlog3 : log2 ++ r3 = log3 := by rw [← hr3, heq3]
                split
                · exact ⟨r2 ++ r3, by rw [← hlog3, ← hlog2]; simp⟩
                · exact ⟨r2 ++ r3, by rw [← hlog3, ← hlog2]; simp⟩
        · split
          · exact ⟨[], by simp⟩
          · exact ⟨[], by simp⟩
  · intro bytes par log2 hc hm hs hpar hrec hretry
    have h1 : create_dir_impl env dr p log =
        (.error "failed to create directory: -2, No such file or directory",
         log ++ [Call.iomanxMkdir (dr ++ ("/" ++ p.display)) 511]) := by
      rw [create_dir_impl_result env dr p log bytes hc, hm]
      have h2 : ok_on_nonnegative_or_strerror env.strerror (-2)
          "failed to create directory" =
          .error ("failed to create directory" ++
            (": " ++ ("-2" ++ (", " ++ env.strerror 2)))) := rfl
      rw [h2, hs]
      have hstr : "failed to create directory" ++
          (": " ++ ("-2" ++ (", " ++ "No such file or directory"))) =
          "failed to create directory: -2, No such file or directory" := by decide
      rw [hstr]
      rfl
    have h3 : create_dir_impl env dr p log2 =
        (.ok (), log2 ++ [Call.iomanxMkdir (dr ++ ("/" ++ p.display)) 511]) := by
      rw [create_dir_impl_result env dr p log2 bytes hc]
      have h4 : ok_on_nonnegative_or_strerror env.strerror (env.mkdirRes log2.length)
          "failed to create directory" = .ok (env.mkdirRes log2.length) := by
        unfold ok_on_nonnegative_or_strerror ok_on_pred_or_strerror
        simp [Int.not_lt.mpr hretry]
      rw [h4]
      rfl
    rw [create_dir_all_impl, h1]
    dsimp only
    rw [if_pos rfl, hpar]
    dsimp only
    rw [hrec]
    dsimp only
    rw [h3]
  · intro e log1 h1 hne hdir
    rw [create_dir_all_impl, h1]
    dsimp only
    rw [if_neg hne, if_pos hdir]
  · intro log1 log2 log3 e3 par h1 hpar hrec h3 hdir
    rw [create_dir_all_impl, h1]
    dsimp only
    rw [if_pos rfl, hpar]
    dsimp only
    rw [hrec]
    dsimp only
    rw [h3]
    dsimp only
    rw [if_pos hdir]
  · intro log1 hpnone h1
    rw [create_dir_all_impl, h1]
    dsimp only
    rw [if_pos rfl, hpnone]

theorem c8_create_dir_all_recursion_witness :
    (RPath.mk false ([] : List String)).parent = none ∧
    create_dir_impl mkdirEnvParentMissing "pfs0:" (RPath.mk false []) [] =
      (.error "failed to create directory: -2, No such file or directory",
       [Call.iomanxMkdir ("pfs0:" ++ ("/" ++ (RPath.mk false ([] : List String)).display))
          511]) ∧
    create_dir_all_impl mkdirEnvParentMissing "pfs0:" (RPath.mk false []) [] =
      (.error "failed to create whole tree",
       [Call.iomanxMkdir ("pfs0:" ++ ("/" ++ (RPath.mk false ([] : List String)).display))
          511]) :=
  ⟨rfl, by decide,
   (c8_create_dir_all_recursion mkdirEnvParentMissing "pfs0:" (RPath.mk false []) []).2.2.2.2
     [Call.iomanxMkdir ("pfs0:" ++ ("/" ++ (RPath.mk false ([] : List String)).display)) 511]
     rfl (by decide)⟩

lemma partEntryTryFrom_name {d : RawDirent} {e : PartEntry}
    (h : partEntryTryFrom d = .ok e) : d.name = RawName.valid e.name := by
  unfold partEntryTryFrom at h
  split at h
  · exact absurd h (by simp)
  · rename_i n hn
    rw [hn]
    split at h
    · cases h
      rfl
    · split at h
      · exact absurd h (by simp)
      · cases h
        rfl

lemma listDirDrain_ok_names (env : DirIterEnv) (path : String) (fd : Int) :
    ∀ (steps : List RawStep) (acc : List DirEntry) (log log' : List Call)
      (l : List DirEntry),
      listDirDrain env path fd steps acc log = (.ok l, log') →
      l.map (fun e => e.entryName) =
        acc.map (fun e => e.entryName) ++
          (drainedNames steps).filter (fun n => n != "." && n != "..") := by
  intro steps
  induction steps with
  | nil =>
    intro acc log log' l h
    simp only [listDirDrain, listDirClose] at h
    split at h
    · exact absurd h (by simp)
    · obtain ⟨h1, -⟩ := Prod.mk.injEq .. ▸ h
      cases h1
      simp [drainedNames]
  | cons step rest ih =>
    intro acc log log' l h
    simp only [listDirDrain] at h
    split at h
    · rename_i hneg
      split at h <;> exact absurd h (by simp)
    · rename_i hneg
      split at h
      · rename_i hpos
        split at h
        · rename_i n hn
          split at h
          · rename_i hfil
            rw [ih _ _ _ _ h]
            simp [drainedNames, hpos, hn, List.filter_cons, hfil]
          · rename_i hfil
            rw [ih _ _ _ _ h]
            simp only [Bool.not_eq_true] at hfil
            simp [drainedNames, hpos, hn, List.filter_cons, hfil]
        · exact absurd h (by simp)
      · rename_i hpos
        simp only [listDirClose] at h
        split at h
        · exact absurd h (by simp)
        · obtain ⟨h1, -⟩ := Prod.mk.injEq .. ▸ h
          cases h1
          simp [drainedNames, hpos]

lemma listPartitionsDrain_ok_names (env : DirIterEnv) (fd : Int) :
    ∀ (steps : List RawStep) (acc : List PartEntry) (log log' : List Call)
      (L : List PartEntry),
      listPartitionsDrain env fd steps acc log = (.ok L, log') →
      L.map (fun e => e.name) = acc.map (fun e => e.name) ++ drainedNames steps := by
  intro steps
  induction steps with
  | nil =>
    intro acc log log' L h
    simp only [listPartitionsDrain, listPartitionsClose] at h
    split at h
    · exact absurd h (by simp)
    · obtain ⟨h1, -⟩ := Prod.mk.injEq .. ▸ h
      cases h1
      simp [drainedNames]
  | cons step rest ih =>
    intro acc log log' L h
    simp only [listPartitionsDrain] at h
    split at h
    · rename_i hneg
      split at h <;> exact absurd h (by simp)
    · rename_i hneg
      split at h
      · rename_i hpos
        split at h
        · exact absurd h (by simp)
        · rename_i e he
          rw [ih _ _ _ _ h]
          have hname := partEntryTryFrom_name he
          simp [drainedNames, hpos, hname]
      · rename_i hpos
        simp only [listPartitionsClose] at h
        split at h
        · exact absurd h (by simp)
        · obtain ⟨h1, -⟩ := Prod.mk.injEq .. ▸ h
          cases h1
          simp [drainedNames, hpos]

/-- C9: the list returned by `list_dir` contains no entry named "." or ".."
and preserves the driver's order of the remaining yielded names; the
filtering applies only to filesystem directory listings —
`list_partitions` returns every driver-yielded slot unfiltered and in
order. -/
theorem c9_projection_filtering :
    ∀ (env : DirIterEnv) (deviceRoot path : String) (l : List DirEntry)
      (L : List PartEntry) (logA logB : List Call),
      (listDir env deviceRoot path = (.ok l, logA) →
        l.map (fun e => e.entryName) =
          (drainedNames env.steps).filter (fun n => n != "." && n != "..") ∧
        ∀ e ∈ l, e.entryName ≠ "." ∧ e.entryName ≠ "..") ∧
      (listPartitions env = (.ok L, logB) →
        L.map (fun e => e.name) = drainedNames env.steps) := by
  intro env deviceRoot path l L logA logB
  constructor
  · intro h
    unfold listDir at h
    split at h
    · exact absurd h (by simp)
    · split at h
      · exact absurd h (by simp)
      · have hmap := listDirDrain_ok_names env path _ env.steps [] _ _ _ h
        simp only [List.map_nil, List.nil_append] at hmap
        refine ⟨hmap, ?_⟩
        intro e he
        have hmem : e.entryName ∈ l.map (fun e => e.entryName) :=
          List.mem_map_of_mem _ he
        rw [hmap] at hmem
        have hp := List.of_mem_filter hmem
        simp only [Bool.and_eq_true, bne_iff_ne, ne_eq] at hp
        exact hp
  · intro h
    unfold listPartitions at h
    split at h
    · exact absurd h (by simp)
    · have hmap := listPartitionsDrain_ok_names env _ env.steps [] _ _ _ h
      simpa using hmap

theorem c9_projection_filtering_witness :
    (listDir c9Env "pfs0:" "dir" =
      (.ok [{ entryName := "a", mode := 0, size := 2, root := "dir" }],
       [Call.iomanxDopen "pfs0:/dir", Call.iomanxDread 0, Call.iomanxDread 0,
        Call.iomanxDread 0, Call.iomanxClose 0])) ∧
    ([({ entryName := "a", mode := 0, size := 2, root := "dir" } : DirEntry)].map
        (fun e => e.entryName) =
      (drainedNames c9Env.steps).filter (fun n => n != "." && n != "..") ∧
      ∀ e ∈ [({ entryName := "a", mode := 0, size := 2, root := "dir" } : DirEntry)],
        e.entryName ≠ "." ∧ e.entryName ≠ "..") ∧
    (listPartitions c9Env =
      (.ok [{ name := ".", kind := none, size := 0 },
            { name := "..", kind := none, size := 0 },
            { name := "a", kind := none, size := 1024 }],
       [Call.iomanxDopen "hdd0:", Call.iomanxDread 0, Call.iomanxDread 0,
        Call.iomanxDread 0, Call.iomanxClose 0])) ∧
    ([({ name := ".", kind := none, size := 0 } : PartEntry),
      { name := "..", kind := none, size := 0 },
      { name := "a", kind := none, size := 1024 }].map (fun e => e.name) =
      drainedNames c9Env.steps) :=
  ⟨rfl,
   (c9_projection_filtering c9Env "pfs0:" "dir"
      [{ entryName := "a", mode := 0, size := 2, root := "dir" }]
      [{ name := ".", kind := none, size := 0 },
       { name := "..", kind := none, size := 0 },
       { name := "a", kind := none, size := 1024 }]
      [Call.iomanxDopen "pfs0:/dir", Call.iomanxDread 0, Call.iomanxDread 0,
       Call.iomanxDread 0, Call.iomanxClose 0]
      [Call.iomanxDopen "hdd0:", Call.iomanxDread 0, Call.iomanxDread 0,
       Call.iomanxDread 0, Call.iomanxClose 0]).1 rfl,
   rfl,
   (c9_projection_filtering c9Env "pfs0:" "dir"
      [{ entryName := "a", mode := 0, size := 2, root := "dir" }]
      [{ name := ".", kind := none, size := 0 },
       { name := "..", kind := none, size := 0 },
       { name := "a", kind := none, size := 1024 }]
      [Call.iomanxDopen "pfs0:/dir", Call.iomanxDread 0, Call.iomanxDread 0,
       Call.iomanxDread 0, Call.iomanxClose 0]
      [Call.iomanxDopen "hdd0:", Call.iomanxDread 0, Call.iomanxDread 0,
       Call.iomanxDread 0, Call.iomanxClose 0]).2 rfl⟩

/-- C6 (code bug evidence): when `dopen` succeeds (handle 3), the first
`dread` yields one entry and the second `dread` reports -5, `list_dir`
returns the drain error having issued no `iomanx_close` call at all — the
directory handle is leaked on this path. -/
theorem c6_list_dir_leaks_handle_on_drain_error :
    listDir { dopenRes := 3
              steps := [⟨1, ⟨.valid "a", 4096, 4⟩⟩, ⟨-5, ⟨.valid "", 0, 0⟩⟩]
              closeRes := 0
              strerror := fun _ => "" } "pfs0:" "testdir" =
      (.err "Failed to list directories: -5 ",
       [Call.iomanxDopen "pfs0:/testdir", Call.iomanxDread 3, Call.iomanxDread 3]) ∧
    (listDir { dopenRes := 3
               steps := [⟨1, ⟨.valid "a", 4096, 4⟩⟩, ⟨-5, ⟨.valid "", 0, 0⟩⟩]
               closeRes := 0
               strerror := fun _ => "" } "pfs0:" "testdir").2.all
      (fun c => match c with | Call.iomanxClose _ => false | _ => true) = true := by
  constructor
  · rfl
  · rfl

/-- C10: converting a PartitionKind to a FormattablePartitionKind succeeds
exactly for MBR, PFS and HDL and fails with the not-formattable error for
EXT2Swap, EXT2 and CFS; for each of MBR, PFS and HDL the round trip through
FormattablePartitionKind is the identity, and the reverse mapping is total
and loses no information. -/
theorem c10_formattable_roundtrip :
    (FormattablePartitionKind.tryFromPartitionKind .MBR = .ok .MBR ∧
     FormattablePartitionKind.tryFromPartitionKind .PFS = .ok .PFS ∧
     FormattablePartitionKind.tryFromPartitionKind .HDL = .ok .HDL) ∧
    (FormattablePartitionKind.tryFromPartitionKind .EXT2Swap =
       .error "Not a formattable partition kind" ∧
     FormattablePartitionKind.tryFromPartitionKind .EXT2 =
       .error "Not a formattable partition kind" ∧
     FormattablePartitionKind.tryFromPartitionKind .CFS =
       .error "Not a formattable partition kind") ∧
    (FormattablePartitionKind.MBR.toPartitionKind = .MBR ∧
     FormattablePartitionKind.PFS.toPartitionKind = .PFS ∧
     FormattablePartitionKind.HDL.toPartitionKind = .HDL) ∧
    (∀ f : FormattablePartitionKind,
      FormattablePartitionKind.tryFromPartitionKind f.toPartitionKind = .ok f) := by
  refine ⟨⟨rfl, rfl, rfl⟩, ⟨rfl, rfl, rfl⟩, ⟨rfl, rfl, rfl⟩, ?_⟩
  intro f
  cases f <;> rfl

end Ps2Hdd
